import Mathlib

/-! # go-staticmaps: tile provider catalogue

A shallow embedding of `tile_provider.go` (package `sm`).

Go strings are embedded as Lean `String`s and Go `int`s as `Int`: no arithmetic is
performed on them, they are only rendered in decimal, and what is proved for all
integers holds for those of the `int` range.  `fmt.Sprintf`, on which `getURL` and
three constructors rest, is embedded after `doPrintf` of Go's package `fmt`:
literal text, `%%`, explicit argument indexes `%[n]`, the verbs `%s`, `%d`, `%v`,
`%T`, and the error renderings `%!v(BADINDEX)`, `%!v(MISSING)`, `%!(NOVERB)`,
`%!(EXTRA ...)` and `%!v(type=value)`.  Flags, width, precision and the remaining
verbs are outside the embedded fragment: there the embedding answers `none`.
The format is read character by character where Go reads bytes; on valid UTF-8
the two agree, every character that `doPrintf` inspects being ASCII.
-/

namespace sm

set_option maxRecDepth 100000

/-! ## Package fmt -/

/-- An operand handed to `Sprintf`: this package passes strings and ints only. -/
inductive Arg where
  | str (s : String)
  | int (n : Int)
  deriving DecidableEq, Repr

/-- The result of `reflect.TypeOf(arg).String()`. -/
def Arg.typeString : Arg → List Char
  | .str _ => "string".data
  | .int _ => "int".data

/-- Base 10 rendering of a signed integer (`fmtInteger` with base 10, no flags). -/
def fmtInteger (n : Int) : List Char := (toString n).data

/-- The rendering of an operand under verb `v`. -/
def Arg.valueV : Arg → List Char
  | .str s => s.data
  | .int n => fmtInteger n

/-- The text `%!verb(type=value)` written for a verb the operand does not accept. -/
def badVerb (arg : Arg) (verb : Char) : List Char :=
  "%!".data ++ verb :: '(' :: (arg.typeString ++ '=' :: (arg.valueV ++ [')']))

/-- The text `%!verb(BADINDEX)`. -/
def badArgNum (verb : Char) : List Char := "%!".data ++ verb :: "(BADINDEX)".data

/-- The text `%!verb(MISSING)`. -/
def missingArg (verb : Char) : List Char := "%!".data ++ verb :: "(MISSING)".data

/-- Rendering of one operand under one verb, `none` for a verb outside the embedded
fragment (`%x`, `%q`, `%c`, ...). -/
def printArg (arg : Arg) (verb : Char) : Option (List Char) :=
  if verb = 'T' then some arg.typeString
  else match arg with
    | .str s =>
      if verb = 'v' ∨ verb = 's' then some s.data
      else if verb ∈ ['x', 'X', 'q', 'w'] then none
      else some (badVerb (.str s) verb)
    | .int n =>
      if verb = 'v' ∨ verb = 'd' then some (fmtInteger n)
      else if verb ∈ ['b', 'o', 'O', 'x', 'X', 'c', 'q', 'U', 'w'] then none
      else some (badVerb (.int n) verb)

/-- Whether the magnitude of a number is too large for a width, precision or index. -/
def tooLarge (x : Nat) : Bool := decide (x > 1000000)

/-- Whether the character is an ASCII digit. -/
def isDigit (c : Char) : Bool := decide ('0' ≤ c) && decide (c ≤ '9')

/-- The loop of `parsenum`: `num`, `isnum` and the number of characters read so
far; `stop` is the length of the whole region, answered on overflow. -/
def parsenumLoop (stop : Nat) : List Char → Nat → Bool → Nat → Nat × Bool × Nat
  | [], num, isnum, newi => (num, isnum, newi)
  | c :: cs, num, isnum, newi =>
    if isDigit c then
      if tooLarge num then (0, false, stop)
      else parsenumLoop stop cs (num * 10 + (c.toNat - '0'.toNat)) true (newi + 1)
    else (num, isnum, newi)

/-- Converts ASCII to integer over the region `s`: the number, whether one was
present, and how many characters of the region were passed. -/
def parsenum (s : List Char) : Nat × Bool × Nat :=
  parsenumLoop s.length s 0 false 0

/-- The bracketed number that opens `format` (known to start with `[`), minus one;
the number of characters to consume; and whether the number parsed. -/
def parseArgNumber (format : List Char) : Int × Nat × Bool :=
  if format.length < 3 then (0, 1, false)
  else
    let body := (format.drop 1).takeWhile (fun c => c ≠ ']')
    if body.length + 1 < format.length then
      let i := body.length + 1
      let (width, ok, newi) := parsenum body
      if !ok || newi + 1 != i then (0, i + 1, false)
      else ((width : Int) - 1, i + 1, true)
    else (0, 1, false)

/-- The part of the printer state that `doPrintf` reads back. -/
structure pp where
  reordered : Bool
  goodArgNum : Bool
  deriving DecidableEq, Repr

/-- The next operand to evaluate: the bracketed index opening `format`, or
`argNum`.  Answers the state, the operand number, the rest of the format, and
whether an index was found. -/
def argNumber (p : pp) (argNum : Nat) (format : List Char) (numArgs : Nat) :
    pp × Nat × List Char × Bool :=
  match format with
  | '[' :: _ =>
    let p := { p with reordered := true }
    let (index, wid, ok) := parseArgNumber format
    if ok && decide (0 ≤ index) && decide (index < (numArgs : Int)) then
      (p, index.toNat, format.drop wid, true)
    else
      ({ p with goodArgNum := false }, argNum, format.drop wid, ok)
  | _ => (p, argNum, format, false)

/-- The operands of `%!(EXTRA type=value, ...)`, separated by commas. -/
def extraArgs : List Arg → List Char
  | [] => []
  | [arg] => arg.typeString ++ '=' :: arg.valueV
  | arg :: rest => arg.typeString ++ '=' :: (arg.valueV ++ ", ".data ++ extraArgs rest)

/-- What `doPrintf` appends once the format is used up: the operands left over,
`a[argNum:]`, when there are some and none was addressed by index. -/
def extraCheck (p : pp) (a : List Arg) (argNum : Nat) : List Char :=
  if !p.reordered && decide (argNum < a.length) then
    "%!(EXTRA ".data ++ extraArgs (a.drop argNum) ++ [')']
  else []

/-- The verb switch that closes a directive: the text written and the next operand
number. -/
def doVerb (p : pp) (a : List Arg) (argNum : Nat) (verb : Char) :
    Option (List Char × Nat) :=
  if verb = '%' then some (['%'], argNum)
  else if !p.goodArgNum then some (badArgNum verb, argNum)
  else match a.get? argNum with
    | none => some (missingArg verb, argNum)
    | some arg => (printArg arg verb).map (fun out => (out, argNum + 1))

/-- The formatting loop over the remaining format.  One unit of `fuel` is spent
per literal character and per directive, so `format.length + 1` always suffices;
`none` is answered for a directive outside the embedded fragment. -/
def doPrintf : Nat → pp → List Char → List Arg → Nat → Option (List Char)
  | 0, _, _, _, _ => none
  | _ + 1, p, [], a, argNum => some (extraCheck p a argNum)
  | fuel + 1, p, c :: format, a, argNum =>
    if c ≠ '%' then (doPrintf fuel p format a argNum).map (fun out => c :: out)
    else
      let p := { p with goodArgNum := true }
      match format with
      | [] => some ("%!(NOVERB)".data ++ extraCheck p a argNum)
      | c :: rest =>
        if c ∈ ['#', '0', '+', '-', ' '] then none
        else if decide ('a' ≤ c) && decide (c ≤ 'z') && decide (argNum < a.length) then
          match a.get? argNum with
          | none => none -- not reached: `argNum < a.length`
          | some arg =>
            (printArg arg c).bind fun out =>
              (doPrintf fuel p rest a (argNum + 1)).map (fun tail => out ++ tail)
        else
          let (p, argNum, format, afterIndex) := argNumber p argNum format a.length
          match format with
          | [] => some ("%!(NOVERB)".data ++ extraCheck p a argNum)
          | c :: _ =>
            if c = '*' ∨ isDigit c ∨ c = '.' then none
            else
              let (p, argNum, format, _) :=
                if afterIndex then (p, argNum, format, afterIndex)
                else argNumber p argNum format a.length
              match format with
              | [] => some ("%!(NOVERB)".data ++ extraCheck p a argNum)
              | verb :: rest =>
                (doVerb p a argNum verb).bind fun (out, argNum) =>
                  (doPrintf fuel p rest a argNum).map (fun tail => out ++ tail)

/-- `fmt.Sprintf(format, a...)`. -/
def Sprintf (format : String) (a : List Arg) : Option String :=
  (doPrintf (format.length + 1) ⟨false, true⟩ format.data a 0).map String.mk

/-! ## tile_provider.go -/

/-- TileProvider encapsulates all infos about a map tile provider service (name,
url scheme, attribution, etc.) -/
structure TileProvider where
  Name : String
  Attribution : String
  IgnoreNotFound : Bool
  TileSize : Int
  URLPattern : String
  Shards : List String
  deriving DecidableEq, Repr

/-- The zero value `new(TileProvider)` starts from. -/
def TileProvider.zero : TileProvider :=
  { Name := "", Attribution := "", IgnoreNotFound := false, TileSize := 0,
    URLPattern := "", Shards := [] }

/-- Method `getURL`: `fmt.Sprintf(t.URLPattern, shard, zoom, x, y)`. -/
def TileProvider.getURL (t : TileProvider) (shard : String) (zoom x y : Int) :
    Option String :=
  Sprintf t.URLPattern [.str shard, .int zoom, .int x, .int y]

/-- NewTileProviderOpenStreetMaps creates a TileProvider struct for OSM's tile
service. -/
def NewTileProviderOpenStreetMaps : TileProvider :=
  { TileProvider.zero with
    Name := "osm"
    Attribution := "Maps and Data (c) openstreetmap.org and contributors, ODbL"
    TileSize := 256
    URLPattern := "http://%[1]s.tile.openstreetmap.org/%[2]d/%[3]d/%[4]d.png"
    Shards := ["a", "b", "c"] }

/-- The format string of `NewTileProviderHere`. -/
def hereFormat : String :=
  "https://%%[1]s.base.maps.cit.api.here.com/maptile/2.1/maptile/%s/%s/%%[2]d/%%[3]d/%%[4]d/512/png?ppi=%v&app_id=%s&app_code=%s"

/-- NewTileProviderHere: the provider for HERE map tiles.  The pattern is the
result of `Sprintf`, which answers on this format whatever the operands are. -/
def NewTileProviderHere (mapId scheme : String) (ppi : Int) (appId appCode : String) :
    TileProvider :=
  { Name := "here"
    Attribution := "here.com"
    IgnoreNotFound := false
    TileSize := 512
    URLPattern :=
      (Sprintf hereFormat
        [.str mapId, .str scheme, .int ppi, .str appId, .str appCode]).get rfl
    Shards := ["1", "2", "3", "4"] }

/-- Constructor `newTileProviderThunderforest`. -/
def newTileProviderThunderforest (name : String) : TileProvider :=
  { TileProvider.zero with
    Name := (Sprintf "thunderforest-%s" [.str name]).get rfl
    Attribution := "Maps (c) Thundeforest; Data (c) OSM and contributors, ODbL"
    TileSize := 256
    URLPattern := "https://%[1]s.tile.thunderforest.com/" ++ name ++ "/%[2]d/%[3]d/%[4]d.png"
    Shards := ["a", "b", "c"] }

/-- NewTileProviderThunderforestLandscape creates a TileProvider struct for
thundeforests's 'landscape' tile service. -/
def NewTileProviderThunderforestLandscape : TileProvider :=
  newTileProviderThunderforest "landscape"

/-- NewTileProviderThunderforestOutdoors creates a TileProvider struct for
thundeforests's 'outdoors' tile service. -/
def NewTileProviderThunderforestOutdoors : TileProvider :=
  newTileProviderThunderforest "outdoors"

/-- NewTileProviderThunderforestTransport creates a TileProvider struct for
thundeforests's 'transport' tile service. -/
def NewTileProviderThunderforestTransport : TileProvider :=
  newTileProviderThunderforest "transport"

/-- NewTileProviderStamenToner creates a TileProvider struct for stamens' 'toner'
tile service. -/
def NewTileProviderStamenToner : TileProvider :=
  { TileProvider.zero with
    Name := "stamen-toner"
    Attribution := "Maps (c) Stamen; Data (c) OSM and contributors, ODbL"
    TileSize := 256
    URLPattern := "http://%[1]s.tile.stamen.com/toner/%[2]d/%[3]d/%[4]d.png"
    Shards := ["a", "b", "c", "d"] }

/-- NewTileProviderStamenTerrain creates a TileProvider struct for stamens'
'terrain' tile service. -/
def NewTileProviderStamenTerrain : TileProvider :=
  { TileProvider.zero with
    Name := "stamen-terrain"
    Attribution := "Maps (c) Stamen; Data (c) OSM and contributors, ODbL"
    TileSize := 256
    URLPattern := "http://%[1]s.tile.stamen.com/terrain/%[2]d/%[3]d/%[4]d.png"
    Shards := ["a", "b", "c", "d"] }

/-- NewTileProviderOpenTopoMap creates a TileProvider struct for opentopomap's tile
service. -/
def NewTileProviderOpenTopoMap : TileProvider :=
  { TileProvider.zero with
    Name := "opentopomap"
    Attribution := "Maps (c) OpenTopoMap [CC-BY-SA]; Data (c) OSM and contributors [ODbL]; Data (c) SRTM"
    TileSize := 256
    URLPattern := "http://%[1]s.tile.opentopomap.org/%[2]d/%[3]d/%[4]d.png"
    Shards := ["a", "b", "c"] }

/-- NewTileProviderWikimedia creates a TileProvider struct for Wikimedia's tile
service. -/
def NewTileProviderWikimedia : TileProvider :=
  { TileProvider.zero with
    Name := "wikimedia"
    Attribution := "Map (c) Wikimedia; Data (c) OSM and contributors, ODbL."
    TileSize := 256
    URLPattern := "https://maps.wikimedia.org/osm-intl/%[2]d/%[3]d/%[4]d.png"
    Shards := [] }

/-- NewTileProviderOpenCycleMap creates a TileProvider struct for OpenCycleMap's
tile service. -/
def NewTileProviderOpenCycleMap : TileProvider :=
  { TileProvider.zero with
    Name := "cycle"
    Attribution := "Maps and Data (c) openstreetmaps.org and contributors, ODbL"
    TileSize := 256
    URLPattern := "http://%[1]s.tile.opencyclemap.org/cycle/%[2]d/%[3]d/%[4]d.png"
    Shards := ["a", "b"] }

/-- Constructor `newTileProviderCarto`. -/
def newTileProviderCarto (name : String) : TileProvider :=
  { TileProvider.zero with
    Name := (Sprintf "carto-%s" [.str name]).get rfl
    Attribution := "Map (c) Carto [CC BY 3.0] Data (c) OSM and contributors, ODbL."
    TileSize := 256
    URLPattern := "https://cartodb-basemaps-%[1]s.global.ssl.fastly.net/" ++ name ++ "_all/%[2]d/%[3]d/%[4]d.png"
    Shards := ["a", "b", "c", "d"] }

/-- NewTileProviderCartoLight creates a TileProvider struct for Carto's tile
service (light variant). -/
def NewTileProviderCartoLight : TileProvider := newTileProviderCarto "light"

/-- NewTileProviderCartoDark creates a TileProvider struct for Carto's tile service
(dark variant). -/
def NewTileProviderCartoDark : TileProvider := newTileProviderCarto "dark"

/-- NewTileProviderArcgisWorldImagery creates a TileProvider struct for Arcgis'
WorldImagery tiles. -/
def NewTileProviderArcgisWorldImagery : TileProvider :=
  { TileProvider.zero with
    Name := "arcgis-worldimagery"
    Attribution := "Source: Esri, Maxar, GeoEye, Earthstar Geographics, CNES/Airbus DS, USDA, USGS, AeroGRID, IGN, and the GIS User Community"
    TileSize := 256
    URLPattern := "https://server.arcgisonline.com/arcgis/rest/services/World_Imagery/MapServer/tile/%[2]d/%[4]d/%[3]d"
    Shards := [] }

/-- A Go `map[string]*TileProvider`, as the list of its entries (one per key). -/
abbrev ProviderMap := List (String × TileProvider)

/-- The assignment `m[k] = v`: replaces the entry under `k`, or adds one. -/
def ProviderMap.assign : ProviderMap → String → TileProvider → ProviderMap
  | [], k, v => [(k, v)]
  | (k', v') :: rest, k, v =>
    if k' = k then (k, v) :: rest else (k', v') :: ProviderMap.assign rest k v

/-- The lookup `m[k]`, `none` when the map has no entry under `k`. -/
def ProviderMap.index : ProviderMap → String → Option TileProvider
  | [], _ => none
  | (k', v') :: rest, k => if k' = k then some v' else ProviderMap.index rest k

/-- The slice `list` of `GetTileProviders`. -/
def providerList : List TileProvider :=
  [ NewTileProviderOpenStreetMaps,
    NewTileProviderOpenCycleMap,
    NewTileProviderThunderforestLandscape,
    NewTileProviderThunderforestOutdoors,
    NewTileProviderThunderforestTransport,
    NewTileProviderStamenToner,
    NewTileProviderStamenTerrain,
    NewTileProviderOpenTopoMap,
    NewTileProviderOpenStreetMaps,
    NewTileProviderOpenCycleMap,
    NewTileProviderCartoLight,
    NewTileProviderCartoDark,
    NewTileProviderArcgisWorldImagery ]

/-- GetTileProviders returns a map of all available TileProviders. -/
def GetTileProviders : ProviderMap :=
  providerList.foldl (fun m tp => m.assign tp.Name tp) []

/-- The exported constructors without parameters, in the order of the file. -/
def exportedConstructors : List TileProvider :=
  [ NewTileProviderOpenStreetMaps,
    NewTileProviderThunderforestLandscape,
    NewTileProviderThunderforestOutdoors,
    NewTileProviderThunderforestTransport,
    NewTileProviderStamenToner,
    NewTileProviderStamenTerrain,
    NewTileProviderOpenTopoMap,
    NewTileProviderWikimedia,
    NewTileProviderOpenCycleMap,
    NewTileProviderCartoLight,
    NewTileProviderCartoDark,
    NewTileProviderArcgisWorldImagery ]

/-- The four operands of `getURL`. -/
def urlArgs (shard : String) (zoom x y : Int) : List Arg :=
  [.str shard, .int zoom, .int x, .int y]

/-- One piece of a URL pattern in the documented shape: literal text, or one of
the four slots `%[1]s`, `%[2]d`, `%[3]d`, `%[4]d`. -/
inductive Piece where
  | lit (s : String)
  | shard
  | zoom
  | x
  | y
  deriving DecidableEq, Repr

/-- The text of a piece inside the pattern. -/
def Piece.pattern : Piece → String
  | .lit s => s
  | .shard => "%[1]s"
  | .zoom => "%[2]d"
  | .x => "%[3]d"
  | .y => "%[4]d"

/-- The text a piece stands for once the slots are filled in. -/
def Piece.fill (shard : String) (zoom x y : Int) : Piece → String
  | .lit s => s
  | .shard => shard
  | .zoom => toString zoom
  | .x => toString x
  | .y => toString y

/-- Whether a piece is one of the four slots. -/
def Piece.isSlot : Piece → Bool
  | .lit _ => false
  | _ => true

/-- Whether the literal text of a piece is free of `%`. -/
def Piece.plain : Piece → Prop
  | .lit s => '%' ∉ s.data
  | _ => True

/-- The pattern spelled by a sequence of pieces. -/
def patternOf (ps : List Piece) : String :=
  ps.foldr (fun q acc => q.pattern ++ acc) ""

/-- The pattern with every slot replaced by its operand. -/
def fillOf (shard : String) (zoom x y : Int) (ps : List Piece) : String :=
  ps.foldr (fun q acc => q.fill shard zoom x y ++ acc) ""

/-- The text `%!(EXTRA string=shard, int=zoom, int=x, int=y)`. -/
def extraText (shard : String) (zoom x y : Int) : String :=
  "%!(EXTRA string=" ++ shard ++ ", int=" ++ toString zoom ++ ", int=" ++ toString x
    ++ ", int=" ++ toString y ++ ")"

/-- The number a list of decimal digits spells, most significant digit first. -/
def decimalValue (cs : List Char) : Nat :=
  cs.foldl (fun acc c => acc * 10 + (c.toNat - '0'.toNat)) 0

/-- The shape of the catalogue's patterns that carry a shard:
`pre %[1]s mid %[2]d/%[3]d/%[4]d suf`. -/
def shardedPieces (pre mid suf : String) : List Piece :=
  [.lit pre, .shard, .lit mid, .zoom, .lit "/", .x, .lit "/", .y, .lit suf]

/-- The shape of the Arcgis pattern, which has no shard and puts `y` before `x`:
`pre %[2]d/%[4]d/%[3]d`. -/
def rowFirstPieces (pre : String) : List Piece :=
  [.lit pre, .zoom, .lit "/", .y, .lit "/", .x, .lit ""]

/-- The pieces of the pattern `NewTileProviderHere` builds from operands free of
`%`. -/
def herePieces (mapId scheme : String) (ppi : Int) (appId appCode : String) : List Piece :=
  shardedPieces "https://"
    (".base.maps.cit.api.here.com/maptile/2.1/maptile/" ++ mapId ++ "/" ++ scheme ++ "/")
    ("/512/png?ppi=" ++ toString ppi ++ "&app_id=" ++ appId ++ "&app_code=" ++ appCode)

/-- Whether `substr` occurs within `s` (`strings.Contains`). -/
def contains (s substr : String) : Prop := substr.data <:+: s.data

instance (s substr : String) : Decidable (contains s substr) :=
  inferInstanceAs (Decidable (substr.data <:+: s.data))

/-- A provider built by one of the exported constructors of the file: a
parameterless one, or `NewTileProviderHere` on some operands. -/
def Constructed (p : TileProvider) : Prop :=
  p ∈ exportedConstructors ∨
    ∃ (mapId scheme : String) (ppi : Int) (appId appCode : String),
      p = NewTileProviderHere mapId scheme ppi appId appCode

/-- The shard slot is present exactly when the provider has shards, and the three
coordinate slots are present. -/
def SlotsPresent (p : TileProvider) : Prop :=
  (contains p.URLPattern "%[1]s" ↔ p.Shards ≠ []) ∧ contains p.URLPattern "%[2]d" ∧
    contains p.URLPattern "%[3]d" ∧ contains p.URLPattern "%[4]d"

instance (p : TileProvider) : Decidable (SlotsPresent p) := by
  unfold SlotsPresent
  infer_instance

/-! ## The formatting loop on literal text and on the four slots -/

theorem doPrintf_literal (p : pp) (a : List Arg) (argNum : Nat) (rest : List Char) :
    ∀ (l : List Char), '%' ∉ l → ∀ fuel : Nat,
      doPrintf (fuel + l.length) p (l ++ rest) a argNum
        = (doPrintf fuel p rest a argNum).map (fun out => l ++ out) := by
  intro l
  induction l with
  | nil => intro _ fuel; simp
  | cons c l ih =>
    intro hl fuel
    have hc : c ≠ '%' := fun h => hl (by simp [h])
    have hl' : '%' ∉ l := fun h => hl (by simp [h])
    have : fuel + (c :: l).length = (fuel + l.length) + 1 := by simp; omega
    rw [this, List.cons_append, doPrintf]
    simp only [hc, ne_eq, not_false_eq_true, if_true, ih hl' fuel, Option.map_map]
    rfl

theorem parseArgNumber_one (v : Char) (rest : List Char) :
    parseArgNumber ('[' :: '1' :: ']' :: v :: rest) = (0, 3, true) := by
  have h : ¬ (rest.length + 1 + 1 + 1 + 1 < 3) := by omega
  simp [parseArgNumber, parsenum, parsenumLoop, isDigit, tooLarge, h]

theorem argNumber_one (p : pp) (argNum : Nat) (v : Char) (rest : List Char) :
    argNumber p argNum ('[' :: '1' :: ']' :: v :: rest) 4
      = (⟨true, p.goodArgNum⟩, 0, v :: rest, true) := by
  simp [argNumber, parseArgNumber_one]

theorem doPrintf_slot_shard (fuel : Nat) (p : pp) (shard : String) (zoom x y : Int)
    (argNum : Nat) (rest : List Char) :
    doPrintf (fuel + 1) p ('%' :: '[' :: '1' :: ']' :: 's' :: rest)
        (urlArgs shard zoom x y) argNum
      = (doPrintf fuel ⟨true, true⟩ rest (urlArgs shard zoom x y) 1).map
          (fun out => shard.data ++ out) := by
  have ha : (urlArgs shard zoom x y).length = 4 := rfl
  have hv : doVerb ⟨true, true⟩ (urlArgs shard zoom x y) 0 's' = some (shard.data, 1) := by
    simp [doVerb, urlArgs, printArg]
  simp [doPrintf, ha, argNumber_one, isDigit, hv]

theorem parseArgNumber_two (v : Char) (rest : List Char) :
    parseArgNumber ('[' :: '2' :: ']' :: v :: rest) = (1, 3, true) := by
  have h : ¬ (rest.length + 1 + 1 + 1 + 1 < 3) := by omega
  simp [parseArgNumber, parsenum, parsenumLoop, isDigit, tooLarge, h]

theorem argNumber_two (p : pp) (argNum : Nat) (v : Char) (rest : List Char) :
    argNumber p argNum ('[' :: '2' :: ']' :: v :: rest) 4
      = (⟨true, p.goodArgNum⟩, 1, v :: rest, true) := by
  simp [argNumber, parseArgNumber_two]

theorem doPrintf_slot_zoom (fuel : Nat) (p : pp) (shard : String) (zoom x y : Int)
    (argNum : Nat) (rest : List Char) :
    doPrintf (fuel + 1) p ('%' :: '[' :: '2' :: ']' :: 'd' :: rest)
        (urlArgs shard zoom x y) argNum
      = (doPrintf fuel ⟨true, true⟩ rest (urlArgs shard zoom x y) 2).map
          (fun out => fmtInteger zoom ++ out) := by
  have ha : (urlArgs shard zoom x y).length = 4 := rfl
  have hv : doVerb ⟨true, true⟩ (urlArgs shard zoom x y) 1 'd' = some (fmtInteger zoom, 2) := by
    simp [doVerb, urlArgs, printArg]
  simp [doPrintf, ha, argNumber_two, isDigit, hv]

theorem parseArgNumber_three (v : Char) (rest : List Char) :
    parseArgNumber ('[' :: '3' :: ']' :: v :: rest) = (2, 3, true) := by
  have h : ¬ (rest.length + 1 + 1 + 1 + 1 < 3) := by omega
  simp [parseArgNumber, parsenum, parsenumLoop, isDigit, tooLarge, h]

theorem argNumber_three (p : pp) (argNum : Nat) (v : Char) (rest : List Char) :
    argNumber p argNum ('[' :: '3' :: ']' :: v :: rest) 4
      = (⟨true, p.goodArgNum⟩, 2, v :: rest, true) := by
  simp [argNumber, parseArgNumber_three]

theorem doPrintf_slot_x (fuel : Nat) (p : pp) (shard : String) (zoom x y : Int)
    (argNum : Nat) (rest : List Char) :
    doPrintf (fuel + 1) p ('%' :: '[' :: '3' :: ']' :: 'd' :: rest)
        (urlArgs shard zoom x y) argNum
      = (doPrintf fuel ⟨true, true⟩ rest (urlArgs shard zoom x y) 3).map
          (fun out => fmtInteger x ++ out) := by
  have ha : (urlArgs shard zoom x y).length = 4 := rfl
  have hv : doVerb ⟨true, true⟩ (urlArgs shard zoom x y) 2 'd' = some (fmtInteger x, 3) := by
    simp [doVerb, urlArgs, printArg]
  simp [doPrintf, ha, argNumber_three, isDigit, hv]

theorem parseArgNumber_four (v : Char) (rest : List Char) :
    parseArgNumber ('[' :: '4' :: ']' :: v :: rest) = (3, 3, true) := by
  have h : ¬ (rest.length + 1 + 1 + 1 + 1 < 3) := by omega
  simp [parseArgNumber, parsenum, parsenumLoop, isDigit, tooLarge, h]

theorem argNumber_four (p : pp) (argNum : Nat) (v : Char) (rest : List Char) :
    argNumber p argNum ('[' :: '4' :: ']' :: v :: rest) 4
      = (⟨true, p.goodArgNum⟩, 3, v :: rest, true) := by
  simp [argNumber, parseArgNumber_four]

theorem doPrintf_slot_y (fuel : Nat) (p : pp) (shard : String) (zoom x y : Int)
    (argNum : Nat) (rest : List Char) :
    doPrintf (fuel + 1) p ('%' :: '[' :: '4' :: ']' :: 'd' :: rest)
        (urlArgs shard zoom x y) argNum
      = (doPrintf fuel ⟨true, true⟩ rest (urlArgs shard zoom x y) 4).map
          (fun out => fmtInteger y ++ out) := by
  have ha : (urlArgs shard zoom x y).length = 4 := rfl
  have hv : doVerb ⟨true, true⟩ (urlArgs shard zoom x y) 3 'd' = some (fmtInteger y, 4) := by
    simp [doVerb, urlArgs, printArg]
  simp [doPrintf, ha, argNumber_four, isDigit, hv]

theorem doPrintf_pieces_reordered (shard : String) (zoom x y : Int) :
    ∀ (ps : List Piece), (∀ q ∈ ps, q.plain) → ∀ (fuel : Nat) (g : Bool) (argNum : Nat),
      (patternOf ps).data.length < fuel →
      doPrintf fuel ⟨true, g⟩ (patternOf ps).data (urlArgs shard zoom x y) argNum
        = some (fillOf shard zoom x y ps).data := by
  intro ps
  induction ps with
  | nil =>
    intro _ fuel g argNum hf
    obtain ⟨f, rfl⟩ : ∃ f, fuel = f + 1 := ⟨fuel - 1, by omega⟩
    simp [patternOf, fillOf, doPrintf, extraCheck]
  | cons q ps ih =>
    intro hp fuel g argNum hf
    have hps : ∀ q ∈ ps, q.plain := fun r hr => hp r (by simp [hr])
    have hq : q.plain := hp q (by simp)
    have hpat : (patternOf (q :: ps)).data = q.pattern.data ++ (patternOf ps).data := by
      simp [patternOf]
    have hfill : (fillOf shard zoom x y (q :: ps)).data
        = (q.fill shard zoom x y).data ++ (fillOf shard zoom x y ps).data := by
      simp [fillOf]
    rw [hpat] at hf ⊢
    rw [hfill]
    cases q with
    | lit s =>
      simp only [Piece.pattern, Piece.fill] at hf ⊢
      rw [List.length_append] at hf
      obtain ⟨f, rfl⟩ : ∃ f, fuel = f + s.data.length := ⟨fuel - s.data.length, by omega⟩
      rw [doPrintf_literal _ _ _ _ _ hq, ih hps f g argNum (by omega)]
      rfl
    | shard =>
      have h5 : Piece.shard.pattern.data.length = 5 := rfl
      rw [List.length_append, h5] at hf
      obtain ⟨f, rfl⟩ : ∃ f, fuel = f + 1 := ⟨fuel - 1, by omega⟩
      have hlen : (patternOf ps).data.length < f := by omega
      show doPrintf (f + 1) _ ('%' :: '[' :: '1' :: ']' :: 's' :: (patternOf ps).data) _ _ = _
      rw [doPrintf_slot_shard, ih hps f true 1 hlen]
      rfl
    | zoom =>
      have h5 : Piece.zoom.pattern.data.length = 5 := rfl
      rw [List.length_append, h5] at hf
      obtain ⟨f, rfl⟩ : ∃ f, fuel = f + 1 := ⟨fuel - 1, by omega⟩
      have hlen : (patternOf ps).data.length < f := by omega
      show doPrintf (f + 1) _ ('%' :: '[' :: '2' :: ']' :: 'd' :: (patternOf ps).data) _ _ = _
      rw [doPrintf_slot_zoom, ih hps f true 2 hlen]
      rfl
    | x =>
      have h5 : Piece.x.pattern.data.length = 5 := rfl
      rw [List.length_append, h5] at hf
      obtain ⟨f, rfl⟩ : ∃ f, fuel = f + 1 := ⟨fuel - 1, by omega⟩
      have hlen : (patternOf ps).data.length < f := by omega
      show doPrintf (f + 1) _ ('%' :: '[' :: '3' :: ']' :: 'd' :: (patternOf ps).data) _ _ = _
      rw [doPrintf_slot_x, ih hps f true 3 hlen]
      rfl
    | y =>
      have h5 : Piece.y.pattern.data.length = 5 := rfl
      rw [List.length_append, h5] at hf
      obtain ⟨f, rfl⟩ : ∃ f, fuel = f + 1 := ⟨fuel - 1, by omega⟩
      have hlen : (patternOf ps).data.length < f := by omega
      show doPrintf (f + 1) _ ('%' :: '[' :: '4' :: ']' :: 'd' :: (patternOf ps).data) _ _ = _
      rw [doPrintf_slot_y, ih hps f true 4 hlen]
      rfl

theorem extraCheck_fresh (g : Bool) (shard : String) (zoom x y : Int) :
    extraCheck ⟨false, g⟩ (urlArgs shard zoom x y) 0 = (extraText shard zoom x y).data := by
  simp [extraCheck, urlArgs, extraArgs, extraText, Arg.typeString, Arg.valueV, fmtInteger]

theorem doPrintf_pieces_fresh (shard : String) (zoom x y : Int) :
    ∀ (ps : List Piece), (∀ q ∈ ps, q.plain) → ∀ (fuel : Nat) (g : Bool),
      (patternOf ps).data.length < fuel →
      doPrintf fuel ⟨false, g⟩ (patternOf ps).data (urlArgs shard zoom x y) 0
        = some ((fillOf shard zoom x y ps).data
            ++ if ps.any Piece.isSlot then [] else (extraText shard zoom x y).data) := by
  intro ps
  induction ps with
  | nil =>
    intro _ fuel g hf
    obtain ⟨f, rfl⟩ : ∃ f, fuel = f + 1 := ⟨fuel - 1, by omega⟩
    simp [patternOf, fillOf, doPrintf, extraCheck_fresh]
  | cons q ps ih =>
    intro hp fuel g hf
    have hps : ∀ q ∈ ps, q.plain := fun r hr => hp r (by simp [hr])
    have hq : q.plain := hp q (by simp)
    have hpat : (patternOf (q :: ps)).data = q.pattern.data ++ (patternOf ps).data := by
      simp [patternOf]
    have hfill : (fillOf shard zoom x y (q :: ps)).data
        = (q.fill shard zoom x y).data ++ (fillOf shard zoom x y ps).data := by
      simp [fillOf]
    rw [hpat] at hf ⊢
    rw [hfill]
    cases q with
    | lit s =>
      simp only [Piece.pattern, Piece.fill] at hf ⊢
      rw [List.length_append] at hf
      obtain ⟨f, rfl⟩ : ∃ f, fuel = f + s.data.length := ⟨fuel - s.data.length, by omega⟩
      rw [doPrintf_literal _ _ _ _ _ hq, ih hps f g (by omega)]
      simp [Piece.isSlot]
    | shard =>
      have h5 : Piece.shard.pattern.data.length = 5 := rfl
      rw [List.length_append, h5] at hf
      obtain ⟨f, rfl⟩ : ∃ f, fuel = f + 1 := ⟨fuel - 1, by omega⟩
      have hlen : (patternOf ps).data.length < f := by omega
      show doPrintf (f + 1) _ ('%' :: '[' :: '1' :: ']' :: 's' :: (patternOf ps).data) _ _ = _
      rw [doPrintf_slot_shard, doPrintf_pieces_reordered shard zoom x y ps hps f true 1 hlen]
      simp [Piece.isSlot, Piece.fill]
    | zoom =>
      have h5 : Piece.zoom.pattern.data.length = 5 := rfl
      rw [List.length_append, h5] at hf
      obtain ⟨f, rfl⟩ : ∃ f, fuel = f + 1 := ⟨fuel - 1, by omega⟩
      have hlen : (patternOf ps).data.length < f := by omega
      show doPrintf (f + 1) _ ('%' :: '[' :: '2' :: ']' :: 'd' :: (patternOf ps).data) _ _ = _
      rw [doPrintf_slot_zoom, doPrintf_pieces_reordered shard zoom x y ps hps f true 2 hlen]
      simp [Piece.isSlot, Piece.fill, fmtInteger]
    | x =>
      have h5 : Piece.x.pattern.data.length = 5 := rfl
      rw [List.length_append, h5] at hf
      obtain ⟨f, rfl⟩ : ∃ f, fuel = f + 1 := ⟨fuel - 1, by omega⟩
      have hlen : (patternOf ps).data.length < f := by omega
      show doPrintf (f + 1) _ ('%' :: '[' :: '3' :: ']' :: 'd' :: (patternOf ps).data) _ _ = _
      rw [doPrintf_slot_x, doPrintf_pieces_reordered shard zoom x y ps hps f true 3 hlen]
      simp [Piece.isSlot, Piece.fill, fmtInteger]
    | y =>
      have h5 : Piece.y.pattern.data.length = 5 := rfl
      rw [List.length_append, h5] at hf
      obtain ⟨f, rfl⟩ : ∃ f, fuel = f + 1 := ⟨fuel - 1, by omega⟩
      have hlen : (patternOf ps).data.length < f := by omega
      show doPrintf (f + 1) _ ('%' :: '[' :: '4' :: ']' :: 'd' :: (patternOf ps).data) _ _ = _
      rw [doPrintf_slot_y, doPrintf_pieces_reordered shard zoom x y ps hps f true 4 hlen]
      simp [Piece.isSlot, Piece.fill, fmtInteger]

/-- `Sprintf` on a pattern in the documented shape: the pattern with its slots
filled in, followed by the `%!(EXTRA ...)` text exactly when it has no slot. -/
theorem Sprintf_patternOf (shard : String) (zoom x y : Int) (ps : List Piece)
    (hp : ∀ q ∈ ps, q.plain) :
    Sprintf (patternOf ps) (urlArgs shard zoom x y)
      = some (fillOf shard zoom x y ps
          ++ if ps.any Piece.isSlot then "" else extraText shard zoom x y) := by
  have h := doPrintf_pieces_fresh shard zoom x y ps hp ((patternOf ps).length + 1) true
    (Nat.lt_succ_self _)
  unfold Sprintf
  rw [h]
  simp only [Option.map_some', Option.some.injEq]
  apply String.ext
  split <;> simp

/-- Only the operands left over are listed after `EXTRA`: the pattern `%s` uses
up the shard and reports zoom, x and y. -/
theorem Sprintf_extra_leftover :
    Sprintf "%s" (urlArgs "a" 3 1 2) = some "a%!(EXTRA int=3, int=1, int=2)" := by
  decide

/-! ## Decimal rendering -/

theorem digitChar_isDigit (k : Nat) (hk : k < 10) :
    (Nat.digitChar k).isDigit = true ∧ (Nat.digitChar k).toNat - '0'.toNat = k := by
  interval_cases k <;> exact ⟨rfl, rfl⟩

theorem decimalValue_append (pre : List Char) (c : Char) :
    decimalValue (pre ++ [c]) = decimalValue pre * 10 + (c.toNat - '0'.toNat) := by
  simp [decimalValue, List.foldl_append]

theorem toDigitsCore_spec : ∀ (fuel n : Nat) (ds : List Char), n < fuel →
    ∃ pre, Nat.toDigitsCore 10 fuel n ds = pre ++ ds ∧ pre ≠ [] ∧
      (∀ c ∈ pre, c.isDigit = true) ∧ decimalValue pre = n := by
  intro fuel
  induction fuel with
  | zero => intro n ds h; omega
  | succ fuel ih =>
    intro n ds h
    have hd := digitChar_isDigit (n % 10) (Nat.mod_lt _ (by decide))
    simp only [Nat.toDigitsCore]
    by_cases h0 : n / 10 = 0
    · refine ⟨[Nat.digitChar (n % 10)], by simp [h0], by simp, ?_, ?_⟩
      · intro c hc
        simp at hc
        rw [hc]; exact hd.1
      · have : decimalValue [Nat.digitChar (n % 10)]
            = (Nat.digitChar (n % 10)).toNat - '0'.toNat := by simp [decimalValue]
        rw [this, hd.2]
        omega
    · have hlt : n / 10 < fuel := by omega
      obtain ⟨pre, h1, _, h3, h4⟩ := ih (n / 10) (Nat.digitChar (n % 10) :: ds) hlt
      refine ⟨pre ++ [Nat.digitChar (n % 10)], by simp [h0, h1], by simp, ?_, ?_⟩
      · intro c hc
        rcases List.mem_append.1 hc with hc | hc
        · exact h3 c hc
        · simp at hc
          rw [hc]; exact hd.1
      · rw [decimalValue_append, h4, hd.2]
        omega

theorem toDigits_spec (n : Nat) :
    Nat.toDigits 10 n ≠ [] ∧ (∀ c ∈ Nat.toDigits 10 n, c.isDigit = true) ∧
      decimalValue (Nat.toDigits 10 n) = n := by
  obtain ⟨pre, h1, h2, h3, h4⟩ := toDigitsCore_spec (n + 1) n [] (Nat.lt_succ_self n)
  have : Nat.toDigits 10 n = pre := by simp [Nat.toDigits, h1]
  rw [this]
  exact ⟨h2, h3, h4⟩

theorem fmtInteger_ofNat (m : Nat) : fmtInteger (Int.ofNat m) = Nat.toDigits 10 m := rfl

theorem fmtInteger_negSucc (m : Nat) :
    fmtInteger (Int.negSucc m) = '-' :: Nat.toDigits 10 (m + 1) := rfl

/-- Every character of a decimal rendering is a digit or the minus sign. -/
theorem fmtInteger_chars (n : Int) : ∀ c ∈ fmtInteger n, c = '-' ∨ c.isDigit = true := by
  intro c hc
  cases n with
  | ofNat m =>
    rw [fmtInteger_ofNat] at hc
    exact Or.inr ((toDigits_spec m).2.1 c hc)
  | negSucc m =>
    rw [fmtInteger_negSucc] at hc
    rcases List.mem_cons.1 hc with hc | hc
    · exact Or.inl hc
    · exact Or.inr ((toDigits_spec (m + 1)).2.1 c hc)

theorem fmtInteger_no_percent (n : Int) : '%' ∉ fmtInteger n := by
  intro h
  rcases fmtInteger_chars n _ h with h | h
  · exact absurd h (by decide)
  · exact absurd h (by decide)

theorem fmtInteger_no_slash (n : Int) : '/' ∉ fmtInteger n := by
  intro h
  rcases fmtInteger_chars n _ h with h | h
  · exact absurd h (by decide)
  · exact absurd h (by decide)

/-- Distinct integers have distinct decimal renderings. -/
theorem fmtInteger_injective (n m : Int) (h : fmtInteger n = fmtInteger m) : n = m := by
  have key : ∀ a b : Nat, Nat.toDigits 10 a = Nat.toDigits 10 b → a = b := by
    intro a b hab
    rw [← (toDigits_spec a).2.2, ← (toDigits_spec b).2.2, hab]
  have mixed : ∀ a b : Nat, Nat.toDigits 10 a ≠ '-' :: Nat.toDigits 10 b := by
    intro a b hab
    have hmem : '-' ∈ Nat.toDigits 10 a := by rw [hab]; simp
    exact absurd ((toDigits_spec a).2.1 _ hmem) (by decide)
  cases n with
  | ofNat a =>
    cases m with
    | ofNat b =>
      rw [fmtInteger_ofNat, fmtInteger_ofNat] at h
      rw [key a b h]
    | negSucc b =>
      rw [fmtInteger_ofNat, fmtInteger_negSucc] at h
      exact absurd h (mixed a (b + 1))
  | negSucc a =>
    cases m with
    | ofNat b =>
      rw [fmtInteger_ofNat, fmtInteger_negSucc] at h
      exact absurd h.symm (mixed b (a + 1))
    | negSucc b =>
      rw [fmtInteger_negSucc, fmtInteger_negSucc] at h
      have := key (a + 1) (b + 1) (List.cons.inj h).2
      have hab : a = b := by omega
      rw [hab]

/-- Two texts that agree up to their first `/` agree before it and after it. -/
theorem split_at_slash : ∀ (a a' r r' : List Char), '/' ∉ a → '/' ∉ a' →
    a ++ '/' :: r = a' ++ '/' :: r' → a = a' ∧ r = r' := by
  intro a
  induction a with
  | nil =>
    intro a' r r' _ ha' h
    cases a' with
    | nil => simpa using h
    | cons c cs =>
      simp only [List.nil_append, List.cons_append, List.cons.injEq] at h
      exact absurd (by simp [← h.1]) ha'
  | cons c cs ih =>
    intro a' r r' ha ha' h
    cases a' with
    | nil =>
      simp only [List.nil_append, List.cons_append, List.cons.injEq] at h
      exact absurd (by simp [h.1]) ha
    | cons c' cs' =>
      simp only [List.cons_append, List.cons.injEq] at h
      have hcs : '/' ∉ cs := fun hm => ha (by simp [hm])
      have hcs' : '/' ∉ cs' := fun hm => ha' (by simp [hm])
      obtain ⟨h1, h2⟩ := ih cs' r r' hcs hcs' h.2
      exact ⟨by rw [h.1, h1], h2⟩

/-- The path `zoom/u/v` followed by a fixed suffix determines `zoom`, `u` and `v`. -/
theorem tile_path_injective (z u v z' u' v' : Int) (suf : List Char)
    (h : fmtInteger z ++ '/' :: (fmtInteger u ++ '/' :: (fmtInteger v ++ suf))
      = fmtInteger z' ++ '/' :: (fmtInteger u' ++ '/' :: (fmtInteger v' ++ suf))) :
    z = z' ∧ u = u' ∧ v = v' := by
  obtain ⟨h1, h2⟩ := split_at_slash _ _ _ _ (fmtInteger_no_slash z) (fmtInteger_no_slash z') h
  obtain ⟨h3, h4⟩ := split_at_slash _ _ _ _ (fmtInteger_no_slash u) (fmtInteger_no_slash u') h2
  exact ⟨fmtInteger_injective _ _ h1, fmtInteger_injective _ _ h3,
    fmtInteger_injective _ _ (List.append_cancel_right h4)⟩

/-! ## getURL on the catalogue's patterns -/

theorem getURL_of_pieces (t : TileProvider) (ps : List Piece) (h : t.URLPattern = patternOf ps)
    (hp : ∀ q ∈ ps, q.plain) (shard : String) (zoom x y : Int) :
    t.getURL shard zoom x y
      = some (fillOf shard zoom x y ps
          ++ if ps.any Piece.isSlot then "" else extraText shard zoom x y) := by
  unfold TileProvider.getURL
  rw [h]
  exact Sprintf_patternOf shard zoom x y ps hp

theorem fillOf_sharded_data (pre mid suf shard : String) (zoom x y : Int) :
    (fillOf shard zoom x y (shardedPieces pre mid suf)).data
      = pre.data ++ (shard.data ++ (mid.data ++ (fmtInteger zoom
          ++ '/' :: (fmtInteger x ++ '/' :: (fmtInteger y ++ suf.data))))) := by
  simp [fillOf, shardedPieces, Piece.fill, fmtInteger]

theorem fillOf_rowFirst_data (pre shard : String) (zoom x y : Int) :
    (fillOf shard zoom x y (rowFirstPieces pre)).data
      = pre.data ++ (fmtInteger zoom
          ++ '/' :: (fmtInteger y ++ '/' :: (fmtInteger x ++ "".data))) := by
  simp [fillOf, rowFirstPieces, Piece.fill, fmtInteger]

theorem getURL_sharded (t : TileProvider) (pre mid suf : String)
    (h : t.URLPattern = patternOf (shardedPieces pre mid suf))
    (hpre : '%' ∉ pre.data) (hmid : '%' ∉ mid.data) (hsuf : '%' ∉ suf.data)
    (shard : String) (zoom x y : Int) :
    t.getURL shard zoom x y
      = some (fillOf shard zoom x y (shardedPieces pre mid suf)) := by
  have hp : ∀ q ∈ shardedPieces pre mid suf, q.plain := by
    intro q hq
    simp only [shardedPieces, List.mem_cons, List.mem_singleton, List.not_mem_nil,
      or_false] at hq
    rcases hq with rfl | rfl | rfl | rfl | rfl | rfl | rfl | rfl | rfl <;>
      first
        | exact hpre
        | exact hmid
        | exact hsuf
        | exact trivial
        | (show '%' ∉ "/".data; decide)
  rw [getURL_of_pieces t _ h hp]
  simp [shardedPieces, Piece.isSlot]

theorem getURL_rowFirst (t : TileProvider) (pre : String)
    (h : t.URLPattern = patternOf (rowFirstPieces pre)) (hpre : '%' ∉ pre.data)
    (shard : String) (zoom x y : Int) :
    t.getURL shard zoom x y = some (fillOf shard zoom x y (rowFirstPieces pre)) := by
  have hp : ∀ q ∈ rowFirstPieces pre, q.plain := by
    intro q hq
    simp only [rowFirstPieces, List.mem_cons, List.mem_singleton, List.not_mem_nil,
      or_false] at hq
    rcases hq with rfl | rfl | rfl | rfl | rfl | rfl | rfl <;>
      first
        | exact hpre
        | exact trivial
        | (show '%' ∉ "/".data; decide)
        | (show '%' ∉ "".data; decide)
  rw [getURL_of_pieces t _ h hp]
  simp [rowFirstPieces, Piece.isSlot]

/-- A sharded catalogue pattern yields different URLs for different tiles or
different shards of equal length. -/
theorem sharded_collision_free (t : TileProvider) (pre mid suf : String)
    (h : t.URLPattern = patternOf (shardedPieces pre mid suf))
    (hpre : '%' ∉ pre.data) (hmid : '%' ∉ mid.data) (hsuf : '%' ∉ suf.data)
    (s s' : String) (hlen : s.data.length = s'.data.length) (z x y z' x' y' : Int)
    (hurl : t.getURL s z x y = t.getURL s' z' x' y') :
    s = s' ∧ z = z' ∧ x = x' ∧ y = y' := by
  rw [getURL_sharded t pre mid suf h hpre hmid hsuf,
    getURL_sharded t pre mid suf h hpre hmid hsuf] at hurl
  have hd := congrArg String.data (Option.some.inj hurl)
  rw [fillOf_sharded_data, fillOf_sharded_data] at hd
  have h1 := List.append_cancel_left hd
  obtain ⟨hs, h2⟩ := List.append_inj h1 hlen
  obtain ⟨hz, hx, hy⟩ := tile_path_injective _ _ _ _ _ _ _ (List.append_cancel_left h2)
  exact ⟨String.ext hs, hz, hx, hy⟩

/-- The Arcgis pattern yields different URLs for different tiles. -/
theorem rowFirst_collision_free (t : TileProvider) (pre : String)
    (h : t.URLPattern = patternOf (rowFirstPieces pre)) (hpre : '%' ∉ pre.data)
    (s s' : String) (z x y z' x' y' : Int)
    (hurl : t.getURL s z x y = t.getURL s' z' x' y') :
    z = z' ∧ x = x' ∧ y = y' := by
  rw [getURL_rowFirst t pre h hpre, getURL_rowFirst t pre h hpre] at hurl
  have hd := congrArg String.data (Option.some.inj hurl)
  rw [fillOf_rowFirst_data, fillOf_rowFirst_data] at hd
  obtain ⟨hz, hy, hx⟩ := tile_path_injective _ _ _ _ _ _ _ (List.append_cancel_left hd)
  exact ⟨hz, hx, hy⟩

/-! ## The provider map -/

theorem index_mem : ∀ (m : ProviderMap) (k : String) (v : TileProvider),
    m.index k = some v → (k, v) ∈ m := by
  intro m
  induction m with
  | nil => intro k v h; simp [ProviderMap.index] at h
  | cons e m ih =>
    intro k v h
    obtain ⟨k', v'⟩ := e
    simp only [ProviderMap.index] at h
    split at h
    · rename_i hk
      simp only [Option.some.injEq] at h
      simp [hk, h]
    · exact List.mem_cons_of_mem _ (ih k v h)

theorem index_assign (m : ProviderMap) (k : String) (v : TileProvider) (k' : String) :
    (m.assign k v).index k' = if k = k' then some v else m.index k' := by
  induction m with
  | nil => simp [ProviderMap.assign, ProviderMap.index]
  | cons e m ih =>
    obtain ⟨k0, v0⟩ := e
    simp only [ProviderMap.assign]
    by_cases h0 : k0 = k
    · subst h0
      simp only [if_true, ProviderMap.index]
      by_cases h1 : k0 = k' <;> simp [h1]
    · simp only [h0, if_false, ProviderMap.index, ih]
      by_cases h1 : k0 = k'
      · subst h1
        have : ¬ k = k0 := fun h => h0 h.symm
        simp [this]
      · simp [h1]

/-- The entries of the map `GetTileProviders` builds. -/
theorem GetTileProviders_entries :
    GetTileProviders =
      [ ("osm", NewTileProviderOpenStreetMaps),
        ("cycle", NewTileProviderOpenCycleMap),
        ("thunderforest-landscape", NewTileProviderThunderforestLandscape),
        ("thunderforest-outdoors", NewTileProviderThunderforestOutdoors),
        ("thunderforest-transport", NewTileProviderThunderforestTransport),
        ("stamen-toner", NewTileProviderStamenToner),
        ("stamen-terrain", NewTileProviderStamenTerrain),
        ("opentopomap", NewTileProviderOpenTopoMap),
        ("carto-light", NewTileProviderCartoLight),
        ("carto-dark", NewTileProviderCartoDark),
        ("arcgis-worldimagery", NewTileProviderArcgisWorldImagery) ] := by
  decide

/-! ## The HERE provider -/

set_option maxHeartbeats 1000000 in
theorem Sprintf_hereFormat (mapId scheme : String) (ppi : Int) (appId appCode : String) :
    Sprintf hereFormat [.str mapId, .str scheme, .int ppi, .str appId, .str appCode]
      = some (patternOf (herePieces mapId scheme ppi appId appCode)) := by
  simp [Sprintf, hereFormat, doPrintf, argNumber, isDigit, doVerb, printArg, extraCheck,
    patternOf, herePieces, shardedPieces, Piece.pattern, fmtInteger]
  apply String.ext
  simp

theorem NewTileProviderHere_URLPattern (mapId scheme : String) (ppi : Int)
    (appId appCode : String) :
    (NewTileProviderHere mapId scheme ppi appId appCode).URLPattern
      = patternOf (herePieces mapId scheme ppi appId appCode) := by
  have h := Sprintf_hereFormat mapId scheme ppi appId appCode
  simp only [NewTileProviderHere, h, Option.get_some]

theorem toString_no_percent (n : Int) : '%' ∉ (toString n).data := fmtInteger_no_percent n

theorem sharded_contains_slots (pre mid suf : String) :
    contains (patternOf (shardedPieces pre mid suf)) "%[1]s" ∧
      contains (patternOf (shardedPieces pre mid suf)) "%[2]d" ∧
      contains (patternOf (shardedPieces pre mid suf)) "%[3]d" ∧
      contains (patternOf (shardedPieces pre mid suf)) "%[4]d" := by
  refine ⟨⟨pre.data, (mid ++ "%[2]d/%[3]d/%[4]d" ++ suf).data, ?_⟩,
    ⟨(pre ++ "%[1]s" ++ mid).data, ("/%[3]d/%[4]d" ++ suf).data, ?_⟩,
    ⟨(pre ++ "%[1]s" ++ mid ++ "%[2]d/").data, ("/%[4]d" ++ suf).data, ?_⟩,
    ⟨(pre ++ "%[1]s" ++ mid ++ "%[2]d/%[3]d/").data, suf.data, ?_⟩⟩ <;>
  simp [patternOf, shardedPieces, Piece.pattern]

theorem index_GetTileProviders (k : String) (v : TileProvider)
    (h : GetTileProviders.index k = some v) : v ∈ providerList ∧ v.Name = k := by
  have hm := index_mem _ _ _ h
  rw [GetTileProviders_entries] at hm
  simp only [List.mem_cons, Prod.mk.injEq, List.mem_singleton, List.not_mem_nil,
    or_false] at hm
  rcases hm with ⟨rfl, rfl⟩ | ⟨rfl, rfl⟩ | ⟨rfl, rfl⟩ | ⟨rfl, rfl⟩ | ⟨rfl, rfl⟩ | ⟨rfl, rfl⟩ |
    ⟨rfl, rfl⟩ | ⟨rfl, rfl⟩ | ⟨rfl, rfl⟩ | ⟨rfl, rfl⟩ | ⟨rfl, rfl⟩ <;>
  exact ⟨by decide, by decide⟩

theorem sharded_provider_collision_free (t : TileProvider) (pre mid suf : String)
    (h : t.URLPattern = patternOf (shardedPieces pre mid suf))
    (hpre : '%' ∉ pre.data) (hmid : '%' ∉ mid.data) (hsuf : '%' ∉ suf.data)
    (hsh : ∀ s ∈ t.Shards, s.data.length = 1) (hne : t.Shards ≠ [])
    (s s' : String) (z x y z' x' y' : Int)
    (hs : (s ∈ t.Shards ∧ s' ∈ t.Shards) ∨ (t.Shards = [] ∧ s = s'))
    (hurl : t.getURL s z x y = t.getURL s' z' x' y') :
    s = s' ∧ z = z' ∧ x = x' ∧ y = y' := by
  rcases hs with ⟨h1, h2⟩ | ⟨h1, _⟩
  · exact sharded_collision_free t pre mid suf h hpre hmid hsuf s s'
      ((hsh s h1).trans (hsh s' h2).symm) z x y z' x' y' hurl
  · exact absurd h1 hne

/-! ## The claims -/

/-- C1 (counterexample): the pattern `tile.png` is literal text without `%` and has
no slot, yet `getURL` does not return it unchanged: the four unused operands are
appended as `%!(EXTRA ...)`. -/
theorem getURL_slotless_counterexample :
    (∀ q ∈ [Piece.lit "tile.png"], q.plain) ∧
    TileProvider.getURL { TileProvider.zero with URLPattern := patternOf [Piece.lit "tile.png"] }
        "a" 3 1 2
      = some "tile.png%!(EXTRA string=a, int=3, int=1, int=2)" ∧
    TileProvider.getURL { TileProvider.zero with URLPattern := patternOf [Piece.lit "tile.png"] }
        "a" 3 1 2
      ≠ some (fillOf "a" 3 1 2 [Piece.lit "tile.png"]) := by
  refine ⟨?_, by decide, by decide⟩
  intro q hq
  rw [List.mem_singleton.1 hq]
  show '%' ∉ "tile.png".data
  decide

/-- C1 (amended): for every URLPattern made of literal text without `%` interleaved
with the slots `%[1]s`, `%[2]d`, `%[3]d`, `%[4]d`, `getURL` returns the pattern with
every slot replaced by its operand and nothing else added, provided the pattern
has at least one slot; a pattern without any slot is returned followed by
`%!(EXTRA string=shard, int=zoom, int=x, int=y)`. -/
theorem getURL_substitutes_slots (t : TileProvider) (ps : List Piece)
    (hpat : t.URLPattern = patternOf ps) (hplain : ∀ q ∈ ps, q.plain)
    (shard : String) (zoom x y : Int) :
    (ps.any Piece.isSlot = true →
      t.getURL shard zoom x y = some (fillOf shard zoom x y ps)) ∧
    (ps.any Piece.isSlot = false →
      t.getURL shard zoom x y
        = some (fillOf shard zoom x y ps ++ extraText shard zoom x y)) := by
  have h := getURL_of_pieces t ps hpat hplain shard zoom x y
  constructor
  · intro hs
    rw [h, hs]
    simp
  · intro hs
    rw [h, hs]
    simp

/-- C1 (witness): the OpenStreetMap pattern at shard `a`, zoom 3, x 1, y 2. -/
theorem getURL_substitutes_slots_witness :
    NewTileProviderOpenStreetMaps.URLPattern
      = patternOf (shardedPieces "http://" ".tile.openstreetmap.org/" ".png") ∧
    (∀ q ∈ shardedPieces "http://" ".tile.openstreetmap.org/" ".png", q.plain) ∧
    NewTileProviderOpenStreetMaps.getURL "a" 3 1 2
      = some "http://a.tile.openstreetmap.org/3/1/2.png" := by
  have hplain : ∀ q ∈ shardedPieces "http://" ".tile.openstreetmap.org/" ".png", q.plain := by
    intro q hq
    simp only [shardedPieces, List.mem_cons, List.mem_singleton, List.not_mem_nil,
      or_false] at hq
    rcases hq with rfl | rfl | rfl | rfl | rfl | rfl | rfl | rfl | rfl <;>
      first
        | exact trivial
        | (show '%' ∉ String.data _; decide)
  refine ⟨by decide, hplain, ?_⟩
  exact ((getURL_substitutes_slots NewTileProviderOpenStreetMaps
    (shardedPieces "http://" ".tile.openstreetmap.org/" ".png") (by decide) hplain
    "a" 3 1 2).1 (by decide)).trans (by decide)

/-- C2 (code at the failing input): `NewTileProviderWikimedia` is an exported
parameterless constructor, the map has no entry under its Name `wikimedia`, and
every other exported parameterless constructor has its provider in the map under
its Name. -/
theorem GetTileProviders_omits_wikimedia :
    NewTileProviderWikimedia ∈ exportedConstructors ∧
    GetTileProviders.index NewTileProviderWikimedia.Name = none ∧
    ∀ p ∈ exportedConstructors, p ≠ NewTileProviderWikimedia →
      GetTileProviders.index p.Name = some p := by
  decide

/-- C3: every value of the map `GetTileProviders` returns is stored under its own
Name; a name that no provider of the list carries has no entry; and although the
list has 13 items, two of them repeated, the map holds exactly one entry for each
Name of the list (11 entries, their keys pairwise distinct). -/
theorem GetTileProviders_keyed_by_name :
    (∀ (k : String) (v : TileProvider), GetTileProviders.index k = some v → v.Name = k) ∧
    (∀ k : String, (∀ p ∈ providerList, p.Name ≠ k) → GetTileProviders.index k = none) ∧
    (GetTileProviders.map Prod.fst).Nodup ∧
    (∀ p ∈ providerList,
      (GetTileProviders.filter (fun e => decide (e.1 = p.Name))).length = 1) ∧
    providerList.length = 13 ∧ GetTileProviders.length = 11 := by
  refine ⟨fun k v h => (index_GetTileProviders k v h).2, ?_, by decide, by decide,
    by decide, by decide⟩
  intro k hk
  cases h : GetTileProviders.index k with
  | none => rfl
  | some v =>
    obtain ⟨h1, h2⟩ := index_GetTileProviders k v h
    exact absurd h2 (hk v h1)

/-- C3 (witness): the entry under `osm` carries the Name `osm`, and `wikimedia`,
the Name of no provider of the list, has no entry. -/
theorem GetTileProviders_keyed_by_name_witness :
    GetTileProviders.index "osm" = some NewTileProviderOpenStreetMaps ∧
    NewTileProviderOpenStreetMaps.Name = "osm" ∧
    (∀ p ∈ providerList, p.Name ≠ "wikimedia") ∧
    GetTileProviders.index "wikimedia" = none :=
  ⟨by decide,
    GetTileProviders_keyed_by_name.1 "osm" NewTileProviderOpenStreetMaps (by decide),
    by decide,
    GetTileProviders_keyed_by_name.2.1 "wikimedia" (by decide)⟩

/-- C4 (code at the failing input): two HERE providers for different schemes
return different URLs for the same shard and tile, and both carry the Name `here`,
the directory their tiles are cached in; the sibling constructors with a
parameter, for Thunderforest and Carto, give different variants different Names,
and the Names of the exported parameterless constructors are pairwise distinct. -/
theorem here_names_collide :
    (NewTileProviderHere "newest" "normal.day" 72 "id" "code").getURL "1" 3 1 2
      ≠ (NewTileProviderHere "newest" "normal.night" 72 "id" "code").getURL "1" 3 1 2 ∧
    (NewTileProviderHere "newest" "normal.day" 72 "id" "code").Name
      = (NewTileProviderHere "newest" "normal.night" 72 "id" "code").Name ∧
    (newTileProviderThunderforest "landscape").Name
      ≠ (newTileProviderThunderforest "outdoors").Name ∧
    (newTileProviderCarto "light").Name ≠ (newTileProviderCarto "dark").Name ∧
    (∀ a ∈ exportedConstructors, ∀ b ∈ exportedConstructors, a.Name = b.Name → a = b) := by
  decide

/-- C5 (counterexample): the Arcgis provider is in the map `GetTileProviders`
returns and its URLPattern does not contain the shard slot `%[1]s`. -/
theorem arcgis_lacks_shard_slot_counterexample :
    GetTileProviders.index "arcgis-worldimagery" = some NewTileProviderArcgisWorldImagery ∧
    ¬ contains NewTileProviderArcgisWorldImagery.URLPattern "%[1]s" := by
  decide

/-- C5 (amended): for every provider in the map returned by GetTileProviders, and
for every provider built by any constructor of tile_provider.go, URLPattern
contains each of `%[2]d` (zoom), `%[3]d` (x) and `%[4]d` (y) at least once, and it
contains `%[1]s` (shard) exactly when the provider's Shards list is not empty. -/
theorem URLPattern_slots_present (p : TileProvider)
    (hp : Constructed p ∨ ∃ k : String, GetTileProviders.index k = some p) :
    (contains p.URLPattern "%[1]s" ↔ p.Shards ≠ []) ∧ contains p.URLPattern "%[2]d" ∧
      contains p.URLPattern "%[3]d" ∧ contains p.URLPattern "%[4]d" := by
  have hexp : ∀ a ∈ exportedConstructors, SlotsPresent a := by decide
  have hlist : ∀ a ∈ providerList, SlotsPresent a := by decide
  rcases hp with (hp | ⟨m, sc, ppi, ai, ac, rfl⟩) | ⟨k, hk⟩
  · exact hexp p hp
  · rw [NewTileProviderHere_URLPattern]
    obtain ⟨h1, h2, h3, h4⟩ := sharded_contains_slots "https://"
      (".base.maps.cit.api.here.com/maptile/2.1/maptile/" ++ m ++ "/" ++ sc ++ "/")
      ("/512/png?ppi=" ++ toString ppi ++ "&app_id=" ++ ai ++ "&app_code=" ++ ac)
    exact ⟨⟨fun _ => by simp [NewTileProviderHere], fun _ => h1⟩, h2, h3, h4⟩
  · exact hlist p (index_GetTileProviders k p hk).1

/-- C5 (witness): the Arcgis provider, built by a constructor and present in the
map, has the three coordinate slots and, having no shards, no shard slot. -/
theorem URLPattern_slots_present_witness :
    Constructed NewTileProviderArcgisWorldImagery ∧
    NewTileProviderArcgisWorldImagery.Shards = [] ∧
    ((contains NewTileProviderArcgisWorldImagery.URLPattern "%[1]s"
        ↔ NewTileProviderArcgisWorldImagery.Shards ≠ []) ∧
      contains NewTileProviderArcgisWorldImagery.URLPattern "%[2]d" ∧
      contains NewTileProviderArcgisWorldImagery.URLPattern "%[3]d" ∧
      contains NewTileProviderArcgisWorldImagery.URLPattern "%[4]d") :=
  ⟨Or.inl (by decide), rfl,
    URLPattern_slots_present NewTileProviderArcgisWorldImagery (Or.inl (Or.inl (by decide)))⟩

/-- C6 (code at the failing input): for map id `newest`, scheme `normal.day`, ppi 72,
app id `id` and app code `code`, the HERE provider has the shards 1 to 4 and tile
size 512, and for shard `1`, zoom 3, x 1, y 2 it returns a URL on the host
`1.base.maps.cit.api.here.com` with `ppi` ahead of `app_id`, which is not the URL
of the structure documented above the constructor. -/
theorem here_url_differs_from_documented :
    (NewTileProviderHere "newest" "normal.day" 72 "id" "code").Shards = ["1", "2", "3", "4"] ∧
    (NewTileProviderHere "newest" "normal.day" 72 "id" "code").TileSize = 512 ∧
    (NewTileProviderHere "newest" "normal.day" 72 "id" "code").getURL "1" 3 1 2
      = some "https://1.base.maps.cit.api.here.com/maptile/2.1/maptile/newest/normal.day/3/1/2/512/png?ppi=72&app_id=id&app_code=code" ∧
    (NewTileProviderHere "newest" "normal.day" 72 "id" "code").getURL "1" 3 1 2
      ≠ some "https://1.base.maps.api.here.com/maptile/2.1/maptile/newest/normal.day/3/1/2/512/png?app_id=id&app_code=code&ppi=72" := by
  decide

/-- C8: within each provider of the map `GetTileProviders` returns, for shards
taken from the provider's Shards (or one fixed shard when it has none), equal
URLs come from equal shard, zoom, x and y. -/
theorem tile_urls_collision_free (k : String) (p : TileProvider)
    (hk : GetTileProviders.index k = some p)
    (s s' : String) (zoom x y zoom' x' y' : Int)
    (hs : (s ∈ p.Shards ∧ s' ∈ p.Shards) ∨ (p.Shards = [] ∧ s = s'))
    (hurl : p.getURL s zoom x y = p.getURL s' zoom' x' y') :
    s = s' ∧ zoom = zoom' ∧ x = x' ∧ y = y' := by
  have hm := index_mem _ _ _ hk
  rw [GetTileProviders_entries] at hm
  simp only [List.mem_cons, Prod.mk.injEq, List.mem_singleton, List.not_mem_nil,
    or_false] at hm
  rcases hm with ⟨rfl, rfl⟩ | ⟨rfl, rfl⟩ | ⟨rfl, rfl⟩ | ⟨rfl, rfl⟩ | ⟨rfl, rfl⟩ | ⟨rfl, rfl⟩ |
    ⟨rfl, rfl⟩ | ⟨rfl, rfl⟩ | ⟨rfl, rfl⟩ | ⟨rfl, rfl⟩ | ⟨rfl, rfl⟩
  · exact sharded_provider_collision_free _ "http://" ".tile.openstreetmap.org/" ".png"
      (by decide) (by decide) (by decide) (by decide) (by decide) (by decide) _ _ _ _ _ _ _ _
      hs hurl
  · exact sharded_provider_collision_free _ "http://" ".tile.opencyclemap.org/cycle/" ".png"
      (by decide) (by decide) (by decide) (by decide) (by decide) (by decide) _ _ _ _ _ _ _ _
      hs hurl
  · exact sharded_provider_collision_free _ "https://" ".tile.thunderforest.com/landscape/"
      ".png"
      (by decide) (by decide) (by decide) (by decide) (by decide) (by decide) _ _ _ _ _ _ _ _
      hs hurl
  · exact sharded_provider_collision_free _ "https://" ".tile.thunderforest.com/outdoors/"
      ".png"
      (by decide) (by decide) (by decide) (by decide) (by decide) (by decide) _ _ _ _ _ _ _ _
      hs hurl
  · exact sharded_provider_collision_free _ "https://" ".tile.thunderforest.com/transport/"
      ".png"
      (by decide) (by decide) (by decide) (by decide) (by decide) (by decide) _ _ _ _ _ _ _ _
      hs hurl
  · exact sharded_provider_collision_free _ "http://" ".tile.stamen.com/toner/" ".png"
      (by decide) (by decide) (by decide) (by decide) (by decide) (by decide) _ _ _ _ _ _ _ _
      hs hurl
  · exact sharded_provider_collision_free _ "http://" ".tile.stamen.com/terrain/" ".png"
      (by decide) (by decide) (by decide) (by decide) (by decide) (by decide) _ _ _ _ _ _ _ _
      hs hurl
  · exact sharded_provider_collision_free _ "http://" ".tile.opentopomap.org/" ".png"
      (by decide) (by decide) (by decide) (by decide) (by decide) (by decide) _ _ _ _ _ _ _ _
      hs hurl
  · exact sharded_provider_collision_free _ "https://cartodb-basemaps-"
      ".global.ssl.fastly.net/light_all/" ".png"
      (by decide) (by decide) (by decide) (by decide) (by decide) (by decide) _ _ _ _ _ _ _ _
      hs hurl
  · exact sharded_provider_collision_free _ "https://cartodb-basemaps-"
      ".global.ssl.fastly.net/dark_all/" ".png"
      (by decide) (by decide) (by decide) (by decide) (by decide) (by decide) _ _ _ _ _ _ _ _
      hs hurl
  · have hss : s = s' := by
      rcases hs with ⟨h1, _⟩ | ⟨_, h2⟩
      · exact absurd h1 (List.not_mem_nil s)
      · exact h2
    exact ⟨hss, rowFirst_collision_free _
      "https://server.arcgisonline.com/arcgis/rest/services/World_Imagery/MapServer/tile/"
      (by decide) (by decide) _ _ _ _ _ _ _ _ hurl⟩

/-- C8 (witness): the OpenStreetMap entry of the map at shard `a`, zoom 3, x 1,
y 2 on both sides. -/
theorem tile_urls_collision_free_witness :
    GetTileProviders.index "osm" = some NewTileProviderOpenStreetMaps ∧
    ("a" ∈ NewTileProviderOpenStreetMaps.Shards ∧ "a" ∈ NewTileProviderOpenStreetMaps.Shards) ∧
    ("a" = "a" ∧ (3 : Int) = 3 ∧ (1 : Int) = 1 ∧ (2 : Int) = 2) :=
  ⟨by decide, by decide,
    tile_urls_collision_free "osm" NewTileProviderOpenStreetMaps (by decide)
      "a" "a" 3 1 2 3 1 2 (Or.inl (by decide)) rfl⟩

/-- C9 (counterexample): with the map id `%d`, which contains `%`, the URL for
shard `1`, zoom 3, x 1, y 2 carries `3` where the map id should stand. -/
theorem here_percent_counterexample :
    '%' ∉ "1".data ∧
    (NewTileProviderHere "%d" "normal.day" 72 "id" "code").getURL "1" 3 1 2
      = some "https://1.base.maps.cit.api.here.com/maptile/2.1/maptile/3/normal.day/3/1/2/512/png?ppi=72&app_id=id&app_code=code" ∧
    (NewTileProviderHere "%d" "normal.day" 72 "id" "code").getURL "1" 3 1 2
      ≠ some ("https://" ++ "1" ++ ".base.maps.cit.api.here.com/maptile/2.1/maptile/" ++ "%d"
          ++ "/" ++ "normal.day" ++ "/" ++ toString (3 : Int) ++ "/" ++ toString (1 : Int) ++ "/"
          ++ toString (2 : Int) ++ "/512/png?ppi=" ++ toString (72 : Int) ++ "&app_id=" ++ "id"
          ++ "&app_code=" ++ "code") := by
  decide

/-- C9 (amended): for all strings mapId, scheme, appId, appCode that contain no
`%`, every integer ppi, every shard string without `%` and all integers zoom, x,
y, the HERE provider's getURL is `https://` + shard +
`.base.maps.cit.api.here.com/maptile/2.1/maptile/` + mapId + `/` + scheme + `/` +
dec(zoom) + `/` + dec(x) + `/` + dec(y) + `/512/png?ppi=` + dec(ppi) + `&app_id=` +
appId + `&app_code=` + appCode. -/
theorem here_url_verbatim (mapId scheme : String) (ppi : Int) (appId appCode : String)
    (shard : String) (zoom x y : Int)
    (hmapId : '%' ∉ mapId.data) (hscheme : '%' ∉ scheme.data)
    (happId : '%' ∉ appId.data) (happCode : '%' ∉ appCode.data)
    (_hshard : '%' ∉ shard.data) :
    (NewTileProviderHere mapId scheme ppi appId appCode).getURL shard zoom x y
      = some ("https://" ++ shard ++ ".base.maps.cit.api.here.com/maptile/2.1/maptile/" ++ mapId
          ++ "/" ++ scheme ++ "/" ++ toString zoom ++ "/" ++ toString x ++ "/" ++ toString y
          ++ "/512/png?ppi=" ++ toString ppi ++ "&app_id=" ++ appId ++ "&app_code=" ++ appCode) := by
  have hppi := toString_no_percent ppi
  have hmid : '%' ∉ (".base.maps.cit.api.here.com/maptile/2.1/maptile/" ++ mapId ++ "/"
      ++ scheme ++ "/").data := by
    simp only [String.data_append, List.mem_append, not_or]
    exact ⟨⟨⟨⟨by decide, hmapId⟩, by decide⟩, hscheme⟩, by decide⟩
  have hsuf : '%' ∉ ("/512/png?ppi=" ++ toString ppi ++ "&app_id=" ++ appId ++ "&app_code="
      ++ appCode).data := by
    simp only [String.data_append, List.mem_append, not_or]
    exact ⟨⟨⟨⟨⟨by decide, hppi⟩, by decide⟩, happId⟩, by decide⟩, happCode⟩
  have hurl := getURL_sharded (NewTileProviderHere mapId scheme ppi appId appCode) "https://"
    (".base.maps.cit.api.here.com/maptile/2.1/maptile/" ++ mapId ++ "/" ++ scheme ++ "/")
    ("/512/png?ppi=" ++ toString ppi ++ "&app_id=" ++ appId ++ "&app_code=" ++ appCode)
    (NewTileProviderHere_URLPattern mapId scheme ppi appId appCode) (by decide) hmid hsuf
    shard zoom x y
  rw [hurl]
  refine congrArg some (String.ext ?_)
  rw [fillOf_sharded_data]
  simp [fmtInteger]

/-- C9 (witness): map id `newest`, scheme `normal.day`, ppi 72, shard `1`. -/
theorem here_url_verbatim_witness :
    ('%' ∉ "newest".data ∧ '%' ∉ "normal.day".data ∧ '%' ∉ "id".data ∧ '%' ∉ "code".data ∧
      '%' ∉ "1".data) ∧
    (NewTileProviderHere "newest" "normal.day" 72 "id" "code").getURL "1" 3 1 2
      = some "https://1.base.maps.cit.api.here.com/maptile/2.1/maptile/newest/normal.day/3/1/2/512/png?ppi=72&app_id=id&app_code=code" :=
  ⟨by decide,
    (here_url_verbatim "newest" "normal.day" 72 "id" "code" "1" 3 1 2 (by decide) (by decide)
      (by decide) (by decide) (by decide)).trans (by decide)⟩

end sm
